import Mathlib

set_option maxRecDepth 8000

/-!
Verification of the prompt refinement engine
(`server/services/promptRefinement.js`).

The JavaScript source is shallowly embedded: strings are Lean `String`s
(manipulated through their `List Char` data), thrown exceptions are
`Except.error`, and the two pieces of ambient state that influence control
flow (the `NODE_ENV === 'development'` check and the outcome of the single
remote OpenAI chat-completion call) are passed as explicit parameters.
-/

namespace PromptRefinement

/-! ## JavaScript string primitives

These model the handful of ECMAScript string operations the service uses:
`String.prototype.trim`, `String.prototype.replace` with the regexes
`/[<>"'`]/g` and `/\s+/g`, `String.prototype.includes`,
`String.prototype.toLowerCase`, and `Array.prototype.join(', ')`.
-/

/-- Characters matched by the regex class `\s` (and removed by `trim`):
ASCII whitespace plus the Unicode space separators, line separators and BOM. -/
def jsWhitespace (c : Char) : Bool :=
  [' ', '\t', '\n', '\r', '\x0b', '\x0c'].contains c
  || (0x2000 ≤ c.toNat && c.toNat ≤ 0x200A)
  || [(0x00A0 : Nat), 0x1680, 0x2028, 0x2029, 0x202F, 0x205F, 0x3000, 0xFEFF].contains c.toNat

/-- The characters removed by `replace(/[<>"'`]/g, '')`, by code point:
`<` (60), `>` (62), `"` (34), `'` (39), backtick (96). -/
def strippedChar (c : Char) : Bool :=
  [(60 : Nat), 62, 34, 39, 96].contains c.toNat

/-- `String.prototype.trim` on the character list: drop `\s` characters from
both ends. -/
def jsTrim (l : List Char) : List Char :=
  ((l.dropWhile jsWhitespace).reverse.dropWhile jsWhitespace).reverse

/-- `replace(/[<>"'`]/g, '')`: delete every stripped character. -/
def removeStripped (l : List Char) : List Char :=
  l.filter (fun c => !strippedChar c)

/-- Scanner for `replace(/\s+/g, ' ')`: `inRun` records whether the previous
character belonged to a whitespace run whose single replacement space was
already emitted. -/
def collapseAux : Bool → List Char → List Char
  | _, [] => []
  | inRun, c :: rest =>
    if jsWhitespace c then
      if inRun then collapseAux true rest
      else ' ' :: collapseAux true rest
    else c :: collapseAux false rest

/-- `replace(/\s+/g, ' ')`: each maximal run of `\s` characters becomes one
space. -/
def collapseWS (l : List Char) : List Char :=
  collapseAux false l

/-- `String.prototype.includes`: `needle` occurs as a contiguous substring of
`hay`. -/
def jsIncludes (hay needle : List Char) : Bool :=
  if needle.isPrefixOf hay then true
  else
    match hay with
    | [] => false
    | _ :: t => jsIncludes t needle

/-- `String.prototype.toLowerCase` applied before keyword scans. -/
def lowerList (s : String) : List Char :=
  s.toList.map Char.toLower

/-- `Array.prototype.join(', ')`. -/
def joinComma : List String → String
  | [] => ""
  | [x] => x
  | x :: y :: rest => x ++ ", " ++ joinComma (y :: rest)

/-- `trim` packaged on `String`. -/
def jsTrimStr (s : String) : String :=
  String.mk (jsTrim s.toList)

/-- `String.prototype.endsWith`, used to state the clause-ordering contract. -/
def strEndsWith (s suffix : String) : Bool :=
  suffix.toList.isSuffixOf s.toList

example : jsTrimStr "  a  b " = "a  b" := by decide
example : collapseWS "a  b".toList = "a b".toList := by decide
example : jsIncludes "a cute dog".toList "dog".toList = true := by decide
example : jsIncludes "a cute dog".toList "cat".toList = false := by decide
example : joinComma ["a", "b", "c"] = "a, b, c" := by decide

/-! ## InputSanitizer.sanitizeText -/

/-- The `userInput` argument as the code observes it: a JavaScript string; a
nullish value (`null`/`undefined`), for which the catch block's optional
chaining `userInput?.substring(0, 100)` short-circuits safely; or any other
non-string value (number, boolean, object, …), on which that same
`substring` call raises a `TypeError`. -/
inductive TextInput where
  | str (s : String)
  | nullish
  | otherNonString
deriving DecidableEq

/-- The cleaning pipeline of `sanitizeText`: trim, delete `[<>"'`]`, collapse
whitespace runs. -/
def sanitizeCore (s : String) : String :=
  String.mk (collapseWS (removeStripped (jsTrim s.toList)))

/-- `InputSanitizer.sanitizeText` (promptRefinement.js lines 67–87).  Both
non-string shapes fail the `!input || typeof input !== 'string'` check with
the same message. -/
def sanitizeText : TextInput → Except String String
  | .nullish => .error "Invalid input: must be a non-empty string"
  | .otherNonString => .error "Invalid input: must be a non-empty string"
  | .str s =>
    if s = "" then .error "Invalid input: must be a non-empty string"
    else
      let sanitized := sanitizeCore s
      if sanitized.length < 1 ∨ sanitized.length > 500 then
        .error "Input must be between 1 and 500 characters"
      else
        .ok sanitized

deriving instance DecidableEq for Except

example : sanitizeText (.str "  a   cute <dog>  ") = .ok "a cute dog" := by decide
example : sanitizeText (.str "a <") = .ok "a " := by decide
example : sanitizeText (.str "a ") = .ok "a" := by decide
example : sanitizeText (.str "") = .error "Invalid input: must be a non-empty string" := by decide

/-! ## InputSanitizer.validateCustomizations -/

/-- One field of the raw `customizations` argument, as the code observes it:
absent (`undefined`), a string, or a non-string value carried together with
its string coercion (used only by template-literal interpolation in
`createFallbackPrompt`) and its truthiness. -/
inductive FieldVal where
  | missing
  | str (s : String)
  | other (disp : String) (tr : Bool)
deriving DecidableEq

/-- JavaScript truthiness of a field value (`if (customizations.complexity)`). -/
def FieldVal.truthy : FieldVal → Bool
  | .missing => false
  | .str s => s ≠ ""
  | .other _ tr => tr

/-- The string a field value interpolates to inside a template literal. -/
def FieldVal.display : FieldVal → String
  | .missing => "undefined"
  | .str s => s
  | .other d _ => d

/-- The five recognized preference fields of the `customizations` object. -/
structure Customizations where
  complexity : FieldVal
  ageGroup : FieldVal
  lineThickness : FieldVal
  border : FieldVal
  theme : FieldVal
deriving DecidableEq

/-- The empty customizations object `{}`. -/
def noCusts : Customizations :=
  ⟨.missing, .missing, .missing, .missing, .missing⟩

/-- The raw `customizations` argument: a (possibly empty) object, `null`
(falsy, and property access on it throws a `TypeError`), or a non-object
primitive (property access yields `undefined`). -/
inductive CustArg where
  | obj (c : Customizations)
  | nullish
  | prim
deriving DecidableEq

/-- The validated preference set: each field either carried over or absent. -/
structure ValidatedCusts where
  complexity : Option String
  ageGroup : Option String
  lineThickness : Option String
  border : Option String
  theme : Option String
deriving DecidableEq

def emptyValidated : ValidatedCusts := ⟨none, none, none, none, none⟩

def enumComplexity : List String := ["simple", "medium", "detailed"]
def enumAgeGroup : List String := ["kids", "teens", "adults"]
def enumLineThickness : List String := ["thin", "medium", "thick"]
def enumBorder : List String := ["with", "without"]
def validThemes : List String :=
  ["animals", "mandalas", "fantasy", "nature", "vehicles", "food", "holidays", "sports"]

/-- One `if (customizations.f) { if (!enum.includes(customizations.f)) throw;
validated.f = customizations.f }` block.  `Array.prototype.includes` compares
with SameValueZero, so a truthy non-string value never equals an enum string. -/
def checkField (v : FieldVal) (allowed : List String) (msg : String) :
    Except String (Option String) :=
  if v.truthy then
    match v with
    | .str s => if allowed.contains s then .ok (some s) else .error msg
    | _ => .error msg
  else
    .ok none

/-- `InputSanitizer.validateCustomizations` (lines 89–138). -/
def validateCustomizations : CustArg → Except String ValidatedCusts
  | .nullish => .ok emptyValidated
  | .prim => .ok emptyValidated
  | .obj c => do
    let comp ← checkField c.complexity enumComplexity "Invalid complexity level"
    let age ← checkField c.ageGroup enumAgeGroup "Invalid age group"
    let thick ← checkField c.lineThickness enumLineThickness "Invalid line thickness"
    let bord ← checkField c.border enumBorder "Invalid border option"
    let them ← checkField c.theme validThemes "Invalid theme"
    .ok ⟨comp, age, thick, bord, them⟩

example : validateCustomizations (.obj noCusts) = .ok emptyValidated := by decide
example : validateCustomizations (.obj ⟨.str "extreme", .missing, .missing, .missing, .missing⟩)
    = .error "Invalid complexity level" := by decide
example : validateCustomizations (.obj ⟨.str "", .missing, .missing, .missing, .missing⟩)
    = .ok emptyValidated := by decide

/-! ## InputSanitizer.checkFamilyFriendly -/

/-- The fixed block-list (lines 141–147). -/
def inappropriateKeywords : List String :=
  ["violence", "blood", "weapon", "gun", "knife", "death", "kill", "murder",
   "sexual", "nude", "naked", "adult", "explicit", "inappropriate", "sexy",
   "drug", "alcohol", "beer", "wine", "cigarette", "smoking", "marijuana",
   "scary", "horror", "demon", "devil", "evil", "dark magic", "satanic",
   "suicide", "self-harm", "cutting", "depression", "anxiety"]

/-- `inappropriateKeywords.filter(keyword => lowerInput.includes(keyword))`. -/
def foundInappropriate (input : String) : List String :=
  inappropriateKeywords.filter (fun k => jsIncludes (lowerList input) k.toList)

/-- `InputSanitizer.checkFamilyFriendly` (lines 140–159). -/
def checkFamilyFriendly (input : String) : Except String Unit :=
  if (foundInappropriate input).length > 0 then
    .error ("Content contains inappropriate terms: " ++ joinComma (foundInappropriate input))
  else
    .ok ()

example : checkFamilyFriendly "a cute dog" = .ok () := by decide
example : checkFamilyFriendly "a Knife" =
    .error "Content contains inappropriate terms: knife" := by decide

/-! ## The subject-pattern catalog (constructor lines 183–287), in declaration
order. -/

def subjectPatterns : List (String × List String) :=
  [("domesticAnimals",
    ["dog", "puppy", "cat", "kitten", "rabbit", "bunny", "hamster", "guinea pig",
     "bird", "parrot", "canary", "fish", "goldfish", "horse", "pony", "cow",
     "pig", "sheep", "goat", "chicken", "duck", "goose", "turkey", "llama", "alpaca"]),
   ("wildAnimals",
    ["lion", "tiger", "elephant", "giraffe", "zebra", "rhinoceros", "hippopotamus",
     "bear", "wolf", "fox", "deer", "moose", "elk", "squirrel", "raccoon",
     "monkey", "ape", "gorilla", "chimpanzee", "kangaroo", "koala", "panda",
     "leopard", "cheetah", "jaguar", "lynx", "bobcat", "buffalo", "bison", "camel"]),
   ("prehistoric",
    ["dinosaur", "tyrannosaurus", "t-rex", "triceratops", "stegosaurus", "brontosaurus",
     "velociraptor", "pterodactyl", "mammoth", "saber-tooth", "sabertooth",
     "dino", "prehistoric", "fossil", "ancient"]),
   ("marineLife",
    ["whale", "dolphin", "shark", "octopus", "squid", "jellyfish", "starfish",
     "seahorse", "turtle", "seal", "walrus", "penguin", "crab", "lobster",
     "shrimp", "manta ray", "stingray", "coral", "seaweed", "submarine"]),
   ("insects",
    ["butterfly", "bee", "ladybug", "spider", "ant", "grasshopper", "cricket",
     "dragonfly", "caterpillar", "snail", "worm", "beetle", "moth", "firefly", "centipede"]),
   ("fantasy",
    ["dragon", "unicorn", "fairy", "mermaid", "phoenix", "griffin", "pegasus",
     "centaur", "elf", "dwarf", "troll", "goblin", "ogre", "wizard", "witch",
     "magic", "magical", "enchanted", "mystical", "legendary", "mythical",
     "castle", "tower", "potion", "wand"]),
   ("nature",
    ["tree", "forest", "flower", "rose", "sunflower", "daisy", "tulip", "lily",
     "garden", "leaf", "grass", "bush", "mountain", "hill", "valley", "river",
     "lake", "ocean", "beach", "desert", "waterfall", "rainbow", "cloud",
     "sun", "moon", "star", "snowflake", "lightning", "landscape", "scenery"]),
   ("vehicles",
    ["car", "truck", "bus", "motorcycle", "bicycle", "train", "airplane", "helicopter",
     "boat", "ship", "submarine", "rocket", "spaceship", "tank", "tractor",
     "fire truck", "ambulance", "police car", "taxi", "van", "jeep", "sports car",
     "race car", "hot air balloon", "scooter"]),
   ("food",
    ["cake", "cookie", "ice cream", "pizza", "burger", "sandwich", "apple",
     "banana", "orange", "strawberry", "cherry", "donut", "cupcake", "candy",
     "chocolate", "fruit", "vegetable", "bread", "cheese", "pie"]),
   ("objects",
    ["house", "home", "chair", "table", "lamp", "clock", "book", "toy",
     "ball", "kite", "balloon", "umbrella", "hat", "shoe", "bag", "cup",
     "bottle", "key", "phone", "computer"]),
   ("sports",
    ["soccer", "football", "basketball", "baseball", "tennis", "golf", "swimming",
     "running", "cycling", "skating", "skiing", "surfing", "climbing", "dancing", "yoga"]),
   ("holidays",
    ["christmas", "halloween", "easter", "birthday", "valentine", "thanksgiving",
     "new year", "party", "celebration", "gift", "present", "ornament",
     "decoration", "holiday", "festival"]),
   ("music",
    ["guitar", "piano", "violin", "drums", "trumpet", "flute", "saxophone",
     "harp", "organ", "microphone"]),
   ("mandalas",
    ["mandala", "pattern", "geometric", "circular", "symmetrical", "ornate",
     "decorative", "intricate", "spiral", "kaleidoscope"]),
   ("abstract",
    ["abstract", "artistic", "design", "creative", "modern", "contemporary",
     "minimalist", "stylized", "artistic pattern", "art"])]

/-- `patterns.filter(pattern => lowercaseInput.includes(pattern)).length`. -/
def categoryScore (lower : List Char) (patterns : List String) : Nat :=
  (patterns.filter (fun p => jsIncludes lower p.toList)).length

/-- The `for (const [category, patterns] of Object.entries(...))` loop of
`detectSubjectCategory`: a new category replaces the running best only when its
score is strictly greater. -/
def bestFold (lower : List Char) : (String × Nat) → List (String × List String) → String × Nat
  | acc, [] => acc
  | acc, cat :: rest =>
    bestFold lower
      (if acc.2 < categoryScore lower cat.2 then (cat.1, categoryScore lower cat.2) else acc)
      rest

/-- `PromptRefinementService.detectSubjectCategory` (lines 589–611). -/
def detectSubjectCategory (input : String) : String :=
  (bestFold (lowerList input) ("general", 0) subjectPatterns).1

example : detectSubjectCategory "a cute dog" = "domesticAnimals" := by decide
example : detectSubjectCategory "dog lion" = "domesticAnimals" := by decide
example : detectSubjectCategory "qqq" = "general" := by decide

/-! ## Enhancement templates (constructor lines 290–387) -/

/-- The `simple`/`medium`/`detailed` template functions of one category. -/
structure TemplateSet where
  simple : String → String
  medium : String → String
  detailed : String → String

def generalTemplates : TemplateSet :=
  ⟨fun s => "simple " ++ s ++ " with basic details and clear features",
   fun s => "detailed " ++ s ++ " with enhanced features, textures, and contextual elements",
   fun s => "intricate " ++ s ++ " with complex details, rich context, and sophisticated elements"⟩

/-- `this.enhancementTemplates[category]`. -/
def enhancementTemplates (category : String) : Option TemplateSet :=
  match category with
  | "domesticAnimals" => some
    ⟨fun s => "friendly " ++ s ++ " with basic features, cute expression, and simple pose",
     fun s => "detailed " ++ s ++ " with natural fur/feather textures, expressive eyes, playful pose, and simple background elements",
     fun s => "intricate " ++ s ++ " with complex fur/feather patterns, highly detailed anatomical features, dynamic pose, environmental context, and companion elements"⟩
  | "wildAnimals" => some
    ⟨fun s => "majestic " ++ s ++ " with basic features, calm expression, and natural stance",
     fun s => "detailed " ++ s ++ " with natural textures, environmental context, characteristic features, and habitat elements",
     fun s => "intricate " ++ s ++ " with complex patterns, detailed anatomy, natural habitat scene, weather effects, and ecosystem elements"⟩
  | "prehistoric" => some
    ⟨fun s => "friendly " ++ s ++ " with basic dinosaur features, simple prehistoric elements, and gentle appearance",
     fun s => "detailed " ++ s ++ " with scale textures, prehistoric vegetation, volcanic landscape, and period-appropriate elements",
     fun s => "intricate " ++ s ++ " with complex scale patterns, detailed prehistoric ecosystem, volcanic activity, ancient plant life, and geological formations"⟩
  | "marineLife" => some
    ⟨fun s => "graceful " ++ s ++ " with basic aquatic features, simple water elements, and peaceful expression",
     fun s => "detailed " ++ s ++ " with natural textures, ocean currents, coral reef elements, and marine ecosystem context",
     fun s => "intricate " ++ s ++ " with complex patterns, detailed underwater scene, coral formations, sea plants, and diverse marine life"⟩
  | "insects" => some
    ⟨fun s => "cute " ++ s ++ " with basic insect features, simple garden elements, and friendly appearance",
     fun s => "detailed " ++ s ++ " with wing patterns, garden setting, flower elements, and natural textures",
     fun s => "intricate " ++ s ++ " with complex wing designs, detailed garden ecosystem, various flowers, leaves, and micro-environment elements"⟩
  | "fantasy" => some
    ⟨fun s => "magical " ++ s ++ " with basic fantasy elements, gentle mystical features, and enchanted appearance",
     fun s => "enchanted " ++ s ++ " with mystical details, magical sparkles, fantasy landscape, and ethereal elements",
     fun s => "intricate " ++ s ++ " with complex magical patterns, detailed fantasy realm, mystical creatures, magical phenomena, and elaborate enchanted environment"⟩
  | "nature" => some
    ⟨fun s => "beautiful " ++ s ++ " with basic natural features, simple environmental elements, and peaceful setting",
     fun s => "detailed " ++ s ++ " with natural textures, seasonal elements, wildlife touches, and environmental context",
     fun s => "intricate " ++ s ++ " with complex natural patterns, detailed ecosystem, weather effects, multiple layers of vegetation, and rich environmental detail"⟩
  | "vehicles" => some
    ⟨fun s => "cool " ++ s ++ " with basic vehicle features, simple design elements, and clean lines",
     fun s => "detailed " ++ s ++ " with mechanical features, environmental setting, motion elements, and contextual background",
     fun s => "intricate " ++ s ++ " with complex mechanical details, dynamic scene, environmental context, technical elements, and rich background details"⟩
  | "food" => some
    ⟨fun s => "delicious " ++ s ++ " with basic food features, simple presentation, and appetizing appearance",
     fun s => "detailed " ++ s ++ " with textures, garnishes, serving elements, and kitchen/dining context",
     fun s => "intricate " ++ s ++ " with complex textures, elaborate presentation, detailed ingredients, cooking elements, and rich culinary scene"⟩
  | "objects" => some
    ⟨fun s => "useful " ++ s ++ " with basic design features, simple form, and clean presentation",
     fun s => "detailed " ++ s ++ " with textures, functional elements, environmental setting, and contextual details",
     fun s => "intricate " ++ s ++ " with complex design patterns, detailed components, rich environmental context, and elaborate decorative elements"⟩
  | "sports" => some
    ⟨fun s => "active " ++ s ++ " with basic sports elements, simple equipment, and dynamic pose",
     fun s => "detailed " ++ s ++ " with sports equipment, playing field elements, action details, and athletic context",
     fun s => "intricate " ++ s ++ " with complex equipment details, detailed sports venue, crowd elements, dynamic action, and rich athletic environment"⟩
  | "holidays" => some
    ⟨fun s => "festive " ++ s ++ " with basic holiday elements, simple decorations, and celebratory mood",
     fun s => "detailed " ++ s ++ " with holiday decorations, seasonal elements, traditional motifs, and festive atmosphere",
     fun s => "intricate " ++ s ++ " with elaborate decorations, detailed traditional elements, complex patterns, celebratory scenes, and rich holiday atmosphere"⟩
  | "music" => some
    ⟨fun s => "musical " ++ s ++ " with basic instrument features, simple musical elements, and harmonic design",
     fun s => "detailed " ++ s ++ " with musical notes, performance setting, acoustic elements, and artistic details",
     fun s => "intricate " ++ s ++ " with complex musical patterns, detailed performance scene, ornate decorations, musical notation, and rich artistic environment"⟩
  | "mandalas" => some
    ⟨fun s => "geometric " ++ s ++ " with basic symmetrical patterns, simple repetitive elements, and balanced design",
     fun s => "detailed " ++ s ++ " with intricate geometric patterns, layered symmetry, decorative elements, and balanced complexity",
     fun s => "complex " ++ s ++ " with elaborate geometric designs, multiple pattern layers, sophisticated symmetrical elements, and rich decorative details"⟩
  | "abstract" => some
    ⟨fun s => "artistic " ++ s ++ " with basic design elements, simple forms, and creative expression",
     fun s => "detailed " ++ s ++ " with artistic patterns, creative elements, expressive forms, and design complexity",
     fun s => "intricate " ++ s ++ " with complex artistic patterns, elaborate design elements, sophisticated forms, and rich creative expression"⟩
  | "general" => some generalTemplates
  | _ => none

/-- `templates[complexity]`: the complexity key is a plain string lookup. -/
def templateLookup (ts : TemplateSet) (complexity : String) : Option (String → String) :=
  match complexity with
  | "simple" => some ts.simple
  | "medium" => some ts.medium
  | "detailed" => some ts.detailed
  | _ => none

/-- `PromptRefinementService.getAgeAdjustment` (lines 632–640). -/
def getAgeAdjustment (ageGroup : String) : String :=
  match ageGroup with
  | "kids" => ", with friendly expressions, safe rounded features, bright cheerful elements, and child-appropriate simplicity"
  | "teens" => ", with moderate detail, contemporary style elements, dynamic composition, and age-appropriate complexity"
  | "adults" => ", with sophisticated details, complex patterns, artistic elements, intricate design, and mature aesthetic appeal"
  | _ => ", with balanced detail level and universal appeal"

/-- `PromptRefinementService.enhanceDescription` (lines 616–627). -/
def enhanceDescription (input category complexity ageGroup : String) : String :=
  let baseDescription := jsTrimStr input
  let templates := (enhancementTemplates category).getD generalTemplates
  let enhancedBase :=
    match templateLookup templates complexity with
    | some f => f baseDescription
    | none => baseDescription
  enhancedBase ++ getAgeAdjustment ageGroup

/-! ## Orchestration (refinePrompt and helpers) -/

/-- The `config` object assembled in `refinePrompt` lines 435–441. -/
structure Config where
  complexity : String
  ageGroup : String
  lineThickness : String
  border : String
  theme : Option String
deriving DecidableEq

/-- Defaults merged over the validated customizations (`|| 'medium'` etc.). -/
def buildConfig (v : ValidatedCusts) : Config :=
  ⟨v.complexity.getD "medium", v.ageGroup.getD "kids",
   v.lineThickness.getD "medium", v.border.getD "with", v.theme⟩

def defaultConfig : Config := ⟨"medium", "kids", "medium", "with", none⟩

/-- `PromptRefinementService.applyColoringBookSpecs` (lines 645–663). -/
def applyColoringBookSpecs (description : String) (config : Config) : String :=
  joinComma
    ["professional black-and-white line art of",
     description,
     "optimized for " ++ config.complexity ++ " complexity level",
     "designed for " ++ config.ageGroup ++ " target audience",
     "featuring " ++ config.lineThickness ++ " line thickness",
     if config.border = "with" then "with elegant decorative border elements"
     else "with clean edges and no border",
     "coloring book style",
     "family-friendly content",
     "no shading or color fills",
     "clear distinct outlines",
     "high contrast black lines on white background",
     "300 DPI print quality",
     "suitable for coloring with crayons, markers, or colored pencils"]

/-- `PromptRefinementService.templateRefinement` (lines 510–529). -/
def templateRefinement (input : String) (config : Config) : String :=
  applyColoringBookSpecs
    (enhanceDescription input (detectSubjectCategory input) config.complexity config.ageGroup)
    config

/-- The technical-specification tail appended to the remote completion
(line 574). -/
def gptSuffix : String :=
  ", black-and-white line art, coloring book style, family-friendly, no shading, clear outlines, 300 DPI, high contrast"

/-- `PromptRefinementService.gptRefinement` (lines 535–584).  `gptResult` is
the outcome of the single `openai.chat.completions.create` call: `some c` when
the remote call returns message content `c`, `none` when it throws (timeout,
non-2xx, malformed payload).  The catch block falls back to the template
method instead of propagating. -/
def gptRefinement (gptResult : Option String) (input : String) (config : Config) : String :=
  match gptResult with
  | some content => jsTrimStr content ++ gptSuffix
  | none => templateRefinement input config

/-- The always-safe constant returned by `createFallbackPrompt`'s own catch
block (line 681). -/
def fallbackCatchString : String :=
  "black-and-white line art coloring book page, family-friendly, no shading, 300 DPI"

/-- `${config.f}` slots of the fallback template literal:
`customizations.f || 'default'`, interpolated. -/
def fallbackField (v : FieldVal) (dflt : String) : String :=
  if v.truthy then v.display else dflt

/-- The border slot: `config.border === 'with' ? 'with border' : 'no border'`
where `config.border = customizations.border || 'with'`. -/
def fallbackBorder (v : FieldVal) : String :=
  if (if v.truthy then v = .str "with" else True : Bool) then "with border" else "no border"

/-- `typeof input === 'string' ? input.trim() : 'drawing'`. -/
def fallbackInputText : TextInput → String
  | .str s => jsTrimStr s
  | .nullish => "drawing"
  | .otherNonString => "drawing"

/-- `PromptRefinementService.createFallbackPrompt` (lines 668–683).  Property
access on a `null` customizations argument throws inside the inner `try`, so
that case returns the hard-coded catch string; a non-object primitive yields
`undefined` for every field, so every slot takes its default. -/
def createFallbackPrompt (input : TextInput) (cust : CustArg) : String :=
  match cust with
  | .nullish => fallbackCatchString
  | .prim =>
    "black-and-white line art of " ++ fallbackInputText input ++
      ", medium complexity, kids style, medium lines, with border, coloring book style, family-friendly, no shading, 300 DPI"
  | .obj c =>
    "black-and-white line art of " ++ fallbackInputText input ++
      ", " ++ fallbackField c.complexity "medium" ++ " complexity, " ++
      fallbackField c.ageGroup "kids" ++ " style, " ++
      fallbackField c.lineThickness "medium" ++ " lines, " ++
      fallbackBorder c.border ++
      ", coloring book style, family-friendly, no shading, 300 DPI"

/-- The `options` argument: an object whose `useGPT` field has the recorded
truthiness, `null`/`undefined` (property access throws), or a non-object
primitive (`useGPT` reads as `undefined`, i.e. falsy). -/
inductive OptArg where
  | obj (useGPT : Bool)
  | nullish
  | prim
deriving DecidableEq

/-- The observable fields of the object returned by `refinePrompt`:
`success`, `refinedPrompt`, `originalInput`, `detectedCategory`,
`appliedSettings`, `metadata.method`, `error`. -/
structure RefineResult where
  success : Bool
  refinedPrompt : String
  originalInput : TextInput
  detectedCategory : Option String
  appliedSettings : Option Config
  method : String
  error : Option String
deriving DecidableEq

/-- The result object returned by the catch block of `refinePrompt`
(lines 492–503). -/
def mkFallback (input : TextInput) (cust : CustArg) (msg : String) : RefineResult :=
  { success := false
    refinedPrompt := createFallbackPrompt input cust
    originalInput := input
    detectedCategory := none
    appliedSettings := none
    method := "fallback"
    error := some msg }

/-- The catch block of `refinePrompt` (lines 481–504).  Before returning the
fallback object it evaluates the logging argument
`input: userInput?.substring(0, 100)` (line 488): optional chaining guards
only `null`/`undefined`, so for any other non-string `userInput` that call
raises a `TypeError` and the function rejects instead of returning
(`Except.error` models the throw). -/
def mkCatch (input : TextInput) (cust : CustArg) (msg : String) :
    Except String RefineResult :=
  match input with
  | .otherNonString => .error "TypeError: userInput.substring is not a function"
  | _ => .ok (mkFallback input cust msg)

/-- `PromptRefinementService.refinePrompt` (lines 418–505).

`dev` is `process.env.NODE_ENV === 'development'`; `gptResult` is the outcome
of the one remote completion call (see `gptRefinement`).  An `Except.ok`
value is the object the `async` function resolves with; `Except.error` is the
function throwing (the promise rejecting), which happens only inside the
catch block's logging call (see `mkCatch`).  Note that after the
external-completion branch returns — even when the remote call threw and the
catch inside `gptRefinement` produced the template result — line 450 still
executes `method = 'gpt-enhanced'`. -/
def refinePrompt (dev : Bool) (gptResult : Option String) (input : TextInput)
    (cust : CustArg) (opts : OptArg) : Except String RefineResult :=
  match sanitizeText input with
  | .error e => mkCatch input cust e
  | .ok sanitizedInput =>
    match validateCustomizations cust with
    | .error e => mkCatch input cust e
    | .ok validated =>
      match checkFamilyFriendly sanitizedInput with
      | .error e => mkCatch input cust e
      | .ok _ =>
        let config := buildConfig validated
        match opts with
        | .nullish => mkCatch input cust "Cannot read properties of null (reading 'useGPT')"
        | .obj useGPT =>
          if useGPT && !dev then
            .ok { success := true
                  refinedPrompt := gptRefinement gptResult sanitizedInput config
                  originalInput := .str sanitizedInput
                  detectedCategory := some (detectSubjectCategory sanitizedInput)
                  appliedSettings := some config
                  method := "gpt-enhanced"
                  error := none }
          else
            .ok { success := true
                  refinedPrompt := templateRefinement sanitizedInput config
                  originalInput := .str sanitizedInput
                  detectedCategory := some (detectSubjectCategory sanitizedInput)
                  appliedSettings := some config
                  method := "template-based"
                  error := none }
        | .prim =>
          .ok { success := true
                refinedPrompt := templateRefinement sanitizedInput config
                originalInput := .str sanitizedInput
                detectedCategory := some (detectSubjectCategory sanitizedInput)
                appliedSettings := some config
                method := "template-based"
                error := none }

example : ∃ r, refinePrompt false none (.str "a cute dog") (.obj noCusts) (.obj false) = .ok r
    ∧ r.success = true ∧ r.detectedCategory = some "domesticAnimals" :=
  ⟨_, rfl, rfl, rfl⟩
example : ∃ r, refinePrompt false none (.str "a knife") (.obj noCusts) (.obj false) = .ok r
    ∧ r.success = false :=
  ⟨_, rfl, rfl⟩
example : ∃ r, refinePrompt false none (.str "a cute dog") (.obj noCusts) (.obj true) = .ok r
    ∧ r.method = "gpt-enhanced" :=
  ⟨_, rfl, rfl⟩
example : refinePrompt false none .otherNonString (.obj noCusts) (.obj false)
    = .error "TypeError: userInput.substring is not a function" := rfl

/-! ## Theorems -/

/-- The fixed style-constraint clause tail of `applyColoringBookSpecs`, in
declared order, joined by the stable separator `", "`. -/
def styleTail : String :=
  "coloring book style, family-friendly content, no shading or color fills, clear distinct outlines, high contrast black lines on white background, 300 DPI print quality, suitable for coloring with crayons, markers, or colored pencils"

/-- C7: `refinePrompt("a cute dog", {})` (any environment, any remote-call
outcome — the template path is taken since `useGPT` is falsy) returns
`success = true`, detected category `"domesticAnimals"`, applied settings
equal to the documented defaults (complexity `medium`, ageGroup `kids`,
lineThickness `medium`, border `with`), and a refined prompt that contains
the substring `"dog"` and ends with the fixed style-constraint clause
sequence in the documented order. -/
theorem refine_cute_dog_end_to_end (dev : Bool) (g : Option String) :
    ∃ r, refinePrompt dev g (.str "a cute dog") (.obj noCusts) (.obj false) = .ok r
    ∧ r.success = true
    ∧ r.detectedCategory = some "domesticAnimals"
    ∧ r.appliedSettings = some defaultConfig
    ∧ jsIncludes r.refinedPrompt.toList "dog".toList = true
    ∧ strEndsWith r.refinedPrompt styleTail = true :=
  ⟨_, rfl, rfl, rfl, rfl, rfl, rfl⟩

/-- C2 counterexample: with the external-completion path selected
(`useGPT` truthy, not development mode) and the remote call throwing
(`gptResult = none`), the result's `metadata.method` is `"gpt-enhanced"`,
not the template path's identifier `"template-based"`, even though the
refined prompt is exactly the template path's output and `success = true`. -/
theorem gpt_throw_method_cex :
    ∃ r, refinePrompt false none (.str "a cute dog") (.obj noCusts) (.obj true) = .ok r
    ∧ r.method = "gpt-enhanced"
    ∧ r.method ≠ "template-based"
    ∧ r.success = true
    ∧ r.refinedPrompt = templateRefinement "a cute dog" defaultConfig :=
  ⟨_, rfl, rfl, by decide, rfl, rfl⟩

/-- C2 (amended): when the external-completion path is selected and the
remote call throws, at most that one call is made and control falls back to
template generation — the refined prompt equals the template path's output
and `success = true` — but `metadata.method` still records
`"gpt-enhanced"`, not `"template-based"`. -/
theorem gpt_throw_falls_back_to_template (s t : String) (cust : CustArg) (v : ValidatedCusts)
    (h1 : sanitizeText (.str s) = .ok t)
    (h2 : validateCustomizations cust = .ok v)
    (h3 : checkFamilyFriendly t = .ok ()) :
    ∃ r, refinePrompt false none (.str s) cust (.obj true) = .ok r
    ∧ r.success = true
    ∧ r.refinedPrompt = templateRefinement t (buildConfig v)
    ∧ r.method = "gpt-enhanced" := by
  simp only [refinePrompt, h1, h2, h3, gptRefinement, Bool.not_false, Bool.and_true,
    Bool.and_self]
  exact ⟨_, rfl, rfl, rfl, rfl⟩

/-- Witness for the amended C2 theorem at a concrete input. -/
theorem gpt_throw_falls_back_to_template_witness :
    ∃ r, refinePrompt false none (.str "a cute dog") (.obj noCusts) (.obj true) = .ok r
    ∧ r.success = true
    ∧ r.refinedPrompt = templateRefinement "a cute dog" (buildConfig emptyValidated)
    ∧ r.method = "gpt-enhanced" :=
  gpt_throw_falls_back_to_template "a cute dog" "a cute dog" (.obj noCusts) emptyValidated
    (by decide) (by decide) (by decide)

/-- C3 counterexample: `refinePrompt("a cute dog", {complexity: "extreme"})`
does yield `success = false` without throwing, but the fallback instruction
string echoes the raw out-of-enum value `"extreme"` instead of being built
with the documented default `medium` for the complexity field that failed
validation. -/
theorem invalid_complexity_fallback_cex :
    ∃ r, refinePrompt false none (.str "a cute dog")
        (.obj ⟨.str "extreme", .missing, .missing, .missing, .missing⟩) (.obj false) = .ok r
    ∧ r.success = false
    ∧ r.refinedPrompt
      = "black-and-white line art of a cute dog, extreme complexity, kids style, medium lines, with border, coloring book style, family-friendly, no shading, 300 DPI"
    ∧ r.refinedPrompt
      ≠ "black-and-white line art of a cute dog, medium complexity, kids style, medium lines, with border, coloring book style, family-friendly, no shading, 300 DPI" :=
  ⟨_, rfl, rfl, by decide, by decide⟩

/-- C3 (amended): an out-of-enum truthy complexity value `v` yields
`success = false` (no exception) with the validation error recorded, and the
fallback instruction string is built with the documented defaults for every
absent field but echoes the raw value `v` for the complexity field that
failed validation. -/
theorem invalid_complexity_fallback (v : String) (dev : Bool) (g : Option String) (opts : OptArg)
    (hne : v ≠ "") (hout : v ∉ enumComplexity) :
    ∃ r, refinePrompt dev g (.str "a cute dog")
        (.obj ⟨.str v, .missing, .missing, .missing, .missing⟩) opts = .ok r
    ∧ r.success = false
    ∧ r.error = some "Invalid complexity level"
    ∧ r.refinedPrompt
      = "black-and-white line art of " ++ "a cute dog" ++ ", " ++ v ++ " complexity, " ++
        "kids" ++ " style, " ++ "medium" ++ " lines, " ++ "with border" ++
        ", coloring book style, family-friendly, no shading, 300 DPI" := by
  have hsan : sanitizeText (.str "a cute dog") = .ok "a cute dog" := by decide
  have htr : FieldVal.truthy (.str v) = true := by
    simp [FieldVal.truthy, hne]
  have hm : FieldVal.missing.truthy = false := rfl
  have hval : validateCustomizations (.obj ⟨.str v, .missing, .missing, .missing, .missing⟩)
      = .error "Invalid complexity level" := by
    simp [validateCustomizations, checkField, htr, hm, hout]
    rfl
  have htrim : jsTrimStr "a cute dog" = "a cute dog" := by decide
  have hr : refinePrompt dev g (.str "a cute dog")
      (.obj ⟨.str v, .missing, .missing, .missing, .missing⟩) opts
      = .ok (mkFallback (.str "a cute dog")
          (.obj ⟨.str v, .missing, .missing, .missing, .missing⟩)
          "Invalid complexity level") := by
    simp only [refinePrompt, hsan, hval, mkCatch]
  refine ⟨_, hr, rfl, rfl, ?_⟩
  simp [mkFallback, createFallbackPrompt, fallbackInputText, fallbackField, fallbackBorder,
    FieldVal.truthy, FieldVal.display, htr, htrim, hne]

/-- Witness for the amended C3 theorem at the spec's own example value. -/
theorem invalid_complexity_fallback_witness :
    ∃ r, refinePrompt false none (.str "a cute dog")
        (.obj ⟨.str "extreme", .missing, .missing, .missing, .missing⟩) (.obj false) = .ok r
    ∧ r.success = false
    ∧ r.error = some "Invalid complexity level"
    ∧ r.refinedPrompt
      = "black-and-white line art of " ++ "a cute dog" ++ ", " ++ "extreme" ++
        " complexity, " ++ "kids" ++ " style, " ++ "medium" ++ " lines, " ++ "with border" ++
        ", coloring book style, family-friendly, no shading, 300 DPI" :=
  invalid_complexity_fallback "extreme" false none (.obj false) (by decide) (by decide)

/-! ### Substring facts used for the moderation claim -/

/-- `jsIncludes` is exactly list-infix containment. -/
lemma jsIncludes_iff (hay needle : List Char) :
    jsIncludes hay needle = true ↔ needle <:+: hay := by
  induction hay with
  | nil =>
    simp [jsIncludes]
  | cons a t ih =>
    by_cases h : needle <+: a :: t
    · simp [jsIncludes, List.infix_cons_iff, h]
    · simp [jsIncludes, List.infix_cons_iff, h, ih]

lemma toList_append (a b : String) : (a ++ b).toList = a.toList ++ b.toList :=
  String.data_append a b

/-- Every member of a joined list occurs as a substring of the join. -/
lemma mem_joinComma_substr {x : String} {l : List String} (h : x ∈ l) :
    x.toList <:+: (joinComma l).toList := by
  induction l with
  | nil => cases h
  | cons y rest ih =>
    cases rest with
    | nil =>
      rcases List.mem_singleton.mp h with rfl
      exact List.infix_refl _
    | cons z rs =>
      rcases List.mem_cons.mp h with rfl | h2
      · show x.toList <:+: (x ++ ", " ++ joinComma (z :: rs)).toList
        rw [toList_append, toList_append]
        exact ((List.prefix_append _ _).trans (List.prefix_append _ _)).isInfix
      · show x.toList <:+: (y ++ ", " ++ joinComma (z :: rs)).toList
        rw [toList_append]
        exact (ih h2).trans (List.suffix_append _ _).isInfix

/-- C8: `checkFamilyFriendly` scans the lower-cased text against the fixed
block-list: when no blocked term occurs it succeeds (with no other effect in
the embedding), and when blocked terms occur it fails with the message listing
the matched terms, so the message contains every matched term as a substring;
consequently `refinePrompt` on `"a knife"` returns `success = false` with an
error message containing `"knife"`. -/
theorem checkFamilyFriendly_spec (input : String) (dev : Bool) (g : Option String) :
    (foundInappropriate input = [] → checkFamilyFriendly input = .ok ())
    ∧ (foundInappropriate input ≠ [] →
        checkFamilyFriendly input
          = .error ("Content contains inappropriate terms: "
              ++ joinComma (foundInappropriate input)))
    ∧ (∀ e, checkFamilyFriendly input = .error e →
        ∀ k ∈ foundInappropriate input, jsIncludes e.toList k.toList = true)
    ∧ (∃ r, refinePrompt dev g (.str "a knife") (.obj noCusts) (.obj false) = .ok r
        ∧ r.success = false
        ∧ ∃ m, r.error = some m ∧ jsIncludes m.toList "knife".toList = true) := by
  refine ⟨?_, ?_, ?_, _, rfl, rfl,
    "Content contains inappropriate terms: knife", rfl, by decide⟩
  · intro h
    simp [checkFamilyFriendly, h]
  · intro h
    simp [checkFamilyFriendly, List.length_pos.mpr h]
  · intro e he k hk
    by_cases h : foundInappropriate input = []
    · simp [checkFamilyFriendly, h] at he
    · simp only [checkFamilyFriendly] at he
      rw [if_pos (List.length_pos.mpr h)] at he
      cases he
      rw [jsIncludes_iff, toList_append]
      exact (mem_joinComma_substr hk).trans (List.suffix_append _ _).isInfix

/-- Witness for C8 at concrete inputs: a clean input passes moderation and
the spec's `"knife"` example is rejected with the term named. -/
theorem checkFamilyFriendly_spec_witness :
    checkFamilyFriendly "sunny meadow" = .ok ()
    ∧ checkFamilyFriendly "a knife"
        = .error ("Content contains inappropriate terms: "
            ++ joinComma (foundInappropriate "a knife")) :=
  ⟨(checkFamilyFriendly_spec "sunny meadow" false none).1 (by decide),
   (checkFamilyFriendly_spec "a knife" false none).2.1 (by decide)⟩

/-! ### validateCustomizations characterization -/

/-- A recognized field carries a value the validator rejects: the value is
truthy and is not a member of the field's enumerated set (a truthy non-string
never equals an enum string under `Array.prototype.includes`). -/
def badField (v : FieldVal) (allowed : List String) : Prop :=
  v.truthy = true ∧ ∀ s, v = .str s → s ∉ allowed

lemma checkField_falsy (v : FieldVal) (allowed : List String) (msg : String)
    (h : v.truthy = false) : checkField v allowed msg = .ok none := by
  simp [checkField, h]

lemma checkField_err_iff (v : FieldVal) (allowed : List String) (msg : String) :
    (∃ e, checkField v allowed msg = .error e) ↔ badField v allowed := by
  cases v with
  | missing => simp [checkField, FieldVal.truthy, badField]
  | str s =>
    by_cases hs : s = ""
    · subst hs
      simp [checkField, FieldVal.truthy, badField]
    · by_cases hc : s ∈ allowed <;>
        simp [checkField, FieldVal.truthy, hs, hc, badField]
  | other d tr =>
    cases tr <;> simp [checkField, FieldVal.truthy, badField]

lemma checkField_not_bad {v : FieldVal} {allowed : List String} {msg : String} {o : Option String}
    (h : checkField v allowed msg = .ok o) : ¬ badField v allowed := by
  intro hb
  rcases (checkField_err_iff v allowed msg).mpr hb with ⟨e, he⟩
  rw [h] at he
  cases he

/-- C10: `validateCustomizations` raises an error only for a recognized field
carrying a truthy value outside its enumerated set: a non-object argument
(`null`, a string, a number) yields the empty preference set without failing,
a falsy field value is silently omitted from the result, and an error occurs
exactly when some recognized field is truthy and out-of-enum. -/
theorem validateCustomizations_spec :
    validateCustomizations .nullish = .ok emptyValidated
    ∧ validateCustomizations .prim = .ok emptyValidated
    ∧ (∀ c : Customizations,
        ((∃ e, validateCustomizations (.obj c) = .error e) ↔
          (badField c.complexity enumComplexity ∨ badField c.ageGroup enumAgeGroup
            ∨ badField c.lineThickness enumLineThickness ∨ badField c.border enumBorder
            ∨ badField c.theme validThemes)))
    ∧ (∀ (c : Customizations) (r : ValidatedCusts),
        validateCustomizations (.obj c) = .ok r →
          (c.complexity.truthy = false → r.complexity = none)
          ∧ (c.ageGroup.truthy = false → r.ageGroup = none)
          ∧ (c.lineThickness.truthy = false → r.lineThickness = none)
          ∧ (c.border.truthy = false → r.border = none)
          ∧ (c.theme.truthy = false → r.theme = none)) := by
  refine ⟨rfl, rfl, ?_, ?_⟩
  · intro c
    cases h1 : checkField c.complexity enumComplexity "Invalid complexity level" with
    | error e1 =>
      have hb := (checkField_err_iff _ _ _).mp ⟨e1, h1⟩
      exact ⟨fun _ => Or.inl hb,
        fun _ => ⟨e1, by simp only [validateCustomizations, h1]; rfl⟩⟩
    | ok o1 =>
      have hn1 := checkField_not_bad h1
      cases h2 : checkField c.ageGroup enumAgeGroup "Invalid age group" with
      | error e2 =>
        have hb := (checkField_err_iff _ _ _).mp ⟨e2, h2⟩
        exact ⟨fun _ => Or.inr (Or.inl hb),
          fun _ => ⟨e2, by simp only [validateCustomizations, h1, h2]; rfl⟩⟩
      | ok o2 =>
        have hn2 := checkField_not_bad h2
        cases h3 : checkField c.lineThickness enumLineThickness "Invalid line thickness" with
        | error e3 =>
          have hb := (checkField_err_iff _ _ _).mp ⟨e3, h3⟩
          exact ⟨fun _ => Or.inr (Or.inr (Or.inl hb)),
            fun _ => ⟨e3, by simp only [validateCustomizations, h1, h2, h3]; rfl⟩⟩
        | ok o3 =>
          have hn3 := checkField_not_bad h3
          cases h4 : checkField c.border enumBorder "Invalid border option" with
          | error e4 =>
            have hb := (checkField_err_iff _ _ _).mp ⟨e4, h4⟩
            exact ⟨fun _ => Or.inr (Or.inr (Or.inr (Or.inl hb))),
              fun _ => ⟨e4, by simp only [validateCustomizations, h1, h2, h3, h4]; rfl⟩⟩
          | ok o4 =>
            have hn4 := checkField_not_bad h4
            cases h5 : checkField c.theme validThemes "Invalid theme" with
            | error e5 =>
              have hb := (checkField_err_iff _ _ _).mp ⟨e5, h5⟩
              exact ⟨fun _ => Or.inr (Or.inr (Or.inr (Or.inr hb))),
                fun _ => ⟨e5, by simp only [validateCustomizations, h1, h2, h3, h4, h5]; rfl⟩⟩
            | ok o5 =>
              have hn5 := checkField_not_bad h5
              constructor
              · rintro ⟨e, he⟩
                simp only [validateCustomizations, h1, h2, h3, h4, h5] at he
                cases he
              · rintro (hb | hb | hb | hb | hb)
                · exact absurd hb hn1
                · exact absurd hb hn2
                · exact absurd hb hn3
                · exact absurd hb hn4
                · exact absurd hb hn5
  · intro c r hok
    cases h1 : checkField c.complexity enumComplexity "Invalid complexity level" with
    | error e1 => simp only [validateCustomizations, h1] at hok; cases hok
    | ok o1 =>
      cases h2 : checkField c.ageGroup enumAgeGroup "Invalid age group" with
      | error e2 => simp only [validateCustomizations, h1, h2] at hok; cases hok
      | ok o2 =>
        cases h3 : checkField c.lineThickness enumLineThickness "Invalid line thickness" with
        | error e3 => simp only [validateCustomizations, h1, h2, h3] at hok; cases hok
        | ok o3 =>
          cases h4 : checkField c.border enumBorder "Invalid border option" with
          | error e4 => simp only [validateCustomizations, h1, h2, h3, h4] at hok; cases hok
          | ok o4 =>
            cases h5 : checkField c.theme validThemes "Invalid theme" with
            | error e5 => simp only [validateCustomizations, h1, h2, h3, h4, h5] at hok; cases hok
            | ok o5 =>
              simp only [validateCustomizations, h1, h2, h3, h4, h5] at hok
              cases hok
              refine ⟨?_, ?_, ?_, ?_, ?_⟩ <;> intro hf
              · have := checkField_falsy c.complexity enumComplexity
                  "Invalid complexity level" hf
                rw [h1] at this; cases this; rfl
              · have := checkField_falsy c.ageGroup enumAgeGroup "Invalid age group" hf
                rw [h2] at this; cases this; rfl
              · have := checkField_falsy c.lineThickness enumLineThickness
                  "Invalid line thickness" hf
                rw [h3] at this; cases this; rfl
              · have := checkField_falsy c.border enumBorder "Invalid border option" hf
                rw [h4] at this; cases this; rfl
              · have := checkField_falsy c.theme validThemes "Invalid theme" hf
                rw [h5] at this; cases this; rfl

/-- Witness for C10 at concrete arguments: a string-valued argument is
ignored, and an object whose fields are falsy (empty string, falsy
non-string) validates to the empty preference set. -/
theorem validateCustomizations_spec_witness :
    validateCustomizations .prim = .ok emptyValidated
    ∧ ((∃ e, validateCustomizations
          (.obj ⟨.str "extreme", .missing, .missing, .missing, .missing⟩) = .error e) ↔
        (badField (FieldVal.str "extreme") enumComplexity ∨ badField .missing enumAgeGroup
          ∨ badField .missing enumLineThickness ∨ badField .missing enumBorder
          ∨ badField .missing validThemes))
    ∧ ((FieldVal.str "").truthy = false →
        (emptyValidated : ValidatedCusts).complexity = none) :=
  ⟨validateCustomizations_spec.2.1,
   validateCustomizations_spec.2.2.1 ⟨.str "extreme", .missing, .missing, .missing, .missing⟩,
   ((validateCustomizations_spec.2.2.2 ⟨.str "", .other "0" false, .missing, .missing, .missing⟩
      emptyValidated (by decide)).1)⟩

/-! ### sanitizeText characterization -/

/-- C9: `sanitizeText` fails exactly when the input is absent or not a
string, or when the cleaned text's length is outside `[1, 500]`; otherwise it
returns the cleaned text: the input trimmed, with the characters
`< > " ' `` removed, and every internal whitespace run collapsed to a single
space (that pipeline is `sanitizeCore`). -/
theorem sanitizeText_spec (s : String) :
    (∀ r, sanitizeText .nullish ≠ .ok r)
    ∧ (∀ r, sanitizeText .otherNonString ≠ .ok r)
    ∧ (1 ≤ (sanitizeCore s).length ∧ (sanitizeCore s).length ≤ 500 →
        sanitizeText (.str s) = .ok (sanitizeCore s))
    ∧ ((sanitizeCore s).length = 0 ∨ 500 < (sanitizeCore s).length →
        ∀ r, sanitizeText (.str s) ≠ .ok r) := by
  refine ⟨(fun r h => by cases h), (fun r h => by cases h), ?_, ?_⟩
  · rintro ⟨h1, h2⟩
    by_cases hs : s = ""
    · subst hs
      have : sanitizeCore "" = "" := rfl
      rw [this] at h1
      exact absurd h1 (by decide)
    · simp only [sanitizeText, if_neg hs]
      rw [if_neg (by omega)]
  · intro h r hok
    by_cases hs : s = ""
    · subst hs
      simp [sanitizeText] at hok
    · simp only [sanitizeText, if_neg hs] at hok
      rw [if_pos (by omega)] at hok
      cases hok

/-- Witness for C9: a concrete messy input is cleaned and accepted. -/
theorem sanitizeText_spec_witness :
    sanitizeText (.str " hello   <world> ") = .ok (sanitizeCore " hello   <world> ") :=
  (sanitizeText_spec " hello   <world> ").2.2.1 (by decide)

/-! ### Non-emptiness of every produced instruction string -/

lemma length_append_pos_left (a b : String) (h : 0 < a.length) : 0 < (a ++ b).length := by
  rw [String.length_append]
  omega

lemma length_append_pos_right (a b : String) (h : 0 < b.length) : 0 < (a ++ b).length := by
  rw [String.length_append]
  omega

lemma joinComma_cons_pos (x : String) (ys : List String) (h : 0 < x.length) :
    0 < (joinComma (x :: ys)).length := by
  cases ys with
  | nil => exact h
  | cons y rest => exact length_append_pos_left _ _ (length_append_pos_left _ _ h)

lemma templateRefinement_pos (input : String) (config : Config) :
    0 < (templateRefinement input config).length := by
  unfold templateRefinement applyColoringBookSpecs
  exact joinComma_cons_pos _ _ (by decide)

lemma gptRefinement_pos (g : Option String) (input : String) (config : Config) :
    0 < (gptRefinement g input config).length := by
  cases g with
  | none => exact templateRefinement_pos input config
  | some content => exact length_append_pos_right _ _ (by decide)

lemma createFallbackPrompt_pos (input : TextInput) (cust : CustArg) :
    0 < (createFallbackPrompt input cust).length := by
  cases cust with
  | nullish => exact (show 0 < fallbackCatchString.length by decide)
  | prim => exact length_append_pos_right _ _ (by decide)
  | obj c => exact length_append_pos_right _ _ (by decide)

/-- C1 (code bug): the claim that `refinePrompt` never throws to the caller
fails on the code for a non-nullish non-string prompt value (a number, a
boolean, an object, …): `sanitizeText` throws, and the catch block's logging
argument `userInput?.substring(0, 100)` (line 488) then raises a `TypeError`
— optional chaining guards only `null`/`undefined` — so the function rejects
before `createFallbackPrompt`'s dedicated non-string `'drawing'` branch can
ever run.  For every string or nullish prompt the claimed behavior does
hold: the call resolves with a result object whose `refinedPrompt` is
non-empty, and on the nullish fallback path `success = false` with the
fallback instruction string and the triggering error message recorded. -/
theorem refine_rejects_nonstring_input (dev : Bool) (g : Option String)
    (cust : CustArg) (opts : OptArg) (s : String) :
    refinePrompt dev g .otherNonString cust opts
      = .error "TypeError: userInput.substring is not a function"
    ∧ (∃ r, refinePrompt dev g .nullish cust opts = .ok r
        ∧ r.success = false
        ∧ r.refinedPrompt = createFallbackPrompt .nullish cust
        ∧ 0 < r.refinedPrompt.length
        ∧ ∃ m, r.error = some m)
    ∧ (∃ r, refinePrompt dev g (.str s) cust opts = .ok r
        ∧ 0 < r.refinedPrompt.length) := by
  refine ⟨rfl, ⟨_, rfl, rfl, rfl, createFallbackPrompt_pos .nullish cust, _, rfl⟩, ?_⟩
  cases hs : sanitizeText (.str s) with
  | error e =>
    exact ⟨mkFallback (.str s) cust e, by simp only [refinePrompt, hs, mkCatch],
      createFallbackPrompt_pos (.str s) cust⟩
  | ok t =>
    cases hv : validateCustomizations cust with
    | error e =>
      exact ⟨mkFallback (.str s) cust e, by simp only [refinePrompt, hs, hv, mkCatch],
        createFallbackPrompt_pos (.str s) cust⟩
    | ok v =>
      cases hf : checkFamilyFriendly t with
      | error e =>
        exact ⟨mkFallback (.str s) cust e, by simp only [refinePrompt, hs, hv, hf, mkCatch],
          createFallbackPrompt_pos (.str s) cust⟩
      | ok u =>
        cases u
        cases opts with
        | nullish =>
          exact ⟨mkFallback (.str s) cust "Cannot read properties of null (reading 'useGPT')",
            by simp only [refinePrompt, hs, hv, hf, mkCatch],
            createFallbackPrompt_pos (.str s) cust⟩
        | prim =>
          refine ⟨{ success := true
                    refinedPrompt := templateRefinement t (buildConfig v)
                    originalInput := .str t
                    detectedCategory := some (detectSubjectCategory t)
                    appliedSettings := some (buildConfig v)
                    method := "template-based"
                    error := none }, ?_, templateRefinement_pos t (buildConfig v)⟩
          simp only [refinePrompt, hs, hv, hf]
        | obj useGPT =>
          by_cases hb : (useGPT && !dev) = true
          · refine ⟨{ success := true
                      refinedPrompt := gptRefinement g t (buildConfig v)
                      originalInput := .str t
                      detectedCategory := some (detectSubjectCategory t)
                      appliedSettings := some (buildConfig v)
                      method := "gpt-enhanced"
                      error := none }, ?_, gptRefinement_pos g t (buildConfig v)⟩
            simp only [refinePrompt, hs, hv, hf]
            rw [if_pos hb]
          · refine ⟨{ success := true
                      refinedPrompt := templateRefinement t (buildConfig v)
                      originalInput := .str t
                      detectedCategory := some (detectSubjectCategory t)
                      appliedSettings := some (buildConfig v)
                      method := "template-based"
                      error := none }, ?_, templateRefinement_pos t (buildConfig v)⟩
            simp only [refinePrompt, hs, hv, hf]
            rw [if_neg hb]

/-! ### Classifier characterization: the fold keeps the earliest maximum -/

/-- The maximal category score over a catalog fragment. -/
def maxScore (lower : List Char) (cats : List (String × List String)) : Nat :=
  cats.foldr (fun cat m => max (categoryScore lower cat.2) m) 0

/-- The strict-improvement fold either keeps its accumulator (when no score
exceeds it) or lands on the earliest entry attaining the maximal score, every
earlier entry scoring strictly less. -/
lemma bestFold_spec (lower : List Char) :
    ∀ (cats : List (String × List String)) (acc : String × Nat),
      (maxScore lower cats ≤ acc.2 → bestFold lower acc cats = acc)
      ∧ (acc.2 < maxScore lower cats →
          ∃ k, ∃ hk : k < cats.length,
            bestFold lower acc cats = ((cats.get ⟨k, hk⟩).1, maxScore lower cats)
            ∧ categoryScore lower (cats.get ⟨k, hk⟩).2 = maxScore lower cats
            ∧ ∀ m, ∀ hm : m < cats.length, m < k →
                categoryScore lower (cats.get ⟨m, hm⟩).2 < maxScore lower cats) := by
  intro cats
  induction cats with
  | nil =>
    intro acc
    refine ⟨fun _ => rfl, fun h => absurd h (by simp [maxScore])⟩
  | cons c rest ih =>
    intro acc
    have hM : maxScore lower (c :: rest)
        = max (categoryScore lower c.2) (maxScore lower rest) := rfl
    constructor
    · intro h
      have hs : categoryScore lower c.2 ≤ acc.2 := le_trans (le_max_left _ _) (hM ▸ h)
      have hM' : maxScore lower rest ≤ acc.2 := le_trans (le_max_right _ _) (hM ▸ h)
      show bestFold lower
        (if acc.2 < categoryScore lower c.2 then (c.1, categoryScore lower c.2) else acc)
        rest = acc
      rw [if_neg (Nat.not_lt.mpr hs)]
      exact (ih acc).1 hM'
    · intro h
      by_cases hs : acc.2 < categoryScore lower c.2
      · by_cases hrest : maxScore lower rest ≤ categoryScore lower c.2
        · have hmax : maxScore lower (c :: rest) = categoryScore lower c.2 := by
            rw [hM]
            exact max_eq_left hrest
          refine ⟨0, Nat.succ_pos _, ?_, by simpa using hmax.symm, ?_⟩
          · show bestFold lower
              (if acc.2 < categoryScore lower c.2 then (c.1, categoryScore lower c.2) else acc)
              rest = _
            rw [if_pos hs, (ih (c.1, categoryScore lower c.2)).1 hrest]
            simp [hmax]
          · intro m hm hml
            exact absurd hml (Nat.not_lt_zero m)
        · push_neg at hrest
          have hmax : maxScore lower (c :: rest) = maxScore lower rest := by
            rw [hM]
            exact max_eq_right hrest.le
          obtain ⟨k, hk, h1, h2, h3⟩ := (ih (c.1, categoryScore lower c.2)).2 hrest
          refine ⟨k + 1, Nat.succ_lt_succ hk, ?_, ?_, ?_⟩
          · show bestFold lower
              (if acc.2 < categoryScore lower c.2 then (c.1, categoryScore lower c.2) else acc)
              rest = _
            rw [if_pos hs, h1]
            simp [hmax]
          · simpa [hmax] using h2
          · intro m hm hml
            cases m with
            | zero => simpa [hmax] using hrest
            | succ m' =>
              simpa [hmax] using h3 m' (Nat.lt_of_succ_lt_succ hm) (Nat.lt_of_succ_lt_succ hml)
      · have hsle : categoryScore lower c.2 ≤ acc.2 := Nat.not_lt.mp hs
        have hM' : acc.2 < maxScore lower rest := by
          rcases lt_max_iff.mp (hM ▸ h) with h' | h'
          · exact absurd h' hs
          · exact h'
        have hmax : maxScore lower (c :: rest) = maxScore lower rest := by
          rw [hM]
          exact max_eq_right (le_trans hsle hM'.le)
        obtain ⟨k, hk, h1, h2, h3⟩ := (ih acc).2 hM'
        refine ⟨k + 1, Nat.succ_lt_succ hk, ?_, ?_, ?_⟩
        · show bestFold lower
            (if acc.2 < categoryScore lower c.2 then (c.1, categoryScore lower c.2) else acc)
            rest = _
          rw [if_neg hs, h1]
          simp [hmax]
        · simpa [hmax] using h2
        · intro m hm hml
          cases m with
          | zero => simpa [hmax] using lt_of_le_of_lt hsle hM'
          | succ m' =>
            simpa [hmax] using h3 m' (Nat.lt_of_succ_lt_succ hm) (Nat.lt_of_succ_lt_succ hml)

lemma subjectPatterns_names_nodup : (subjectPatterns.map Prod.fst).Nodup := by decide

lemma general_not_mem_names : "general" ∉ subjectPatterns.map Prod.fst := by decide

lemma subjectPatterns_each_nodup : ∀ c ∈ subjectPatterns, c.2.Nodup := by decide

/-- C4: in `detectSubjectCategory` the best-scoring category is replaced only
on a strictly greater score, so whenever two categories score equally on an
input, the one declared later in the catalog is never the result — ties go to
the earliest-declared category. -/
theorem detect_tie_earliest (input : String) (i j : Nat)
    (hi : i < subjectPatterns.length) (hj : j < subjectPatterns.length) (hij : i < j)
    (heq : categoryScore (lowerList input) (subjectPatterns.get ⟨i, hi⟩).2
        = categoryScore (lowerList input) (subjectPatterns.get ⟨j, hj⟩).2) :
    detectSubjectCategory input ≠ (subjectPatterns.get ⟨j, hj⟩).1 := by
  intro hdet
  by_cases h0 : maxScore (lowerList input) subjectPatterns ≤ 0
  · have hres : detectSubjectCategory input = "general" := by
      unfold detectSubjectCategory
      rw [(bestFold_spec (lowerList input) subjectPatterns ("general", 0)).1 h0]
    rw [hres] at hdet
    exact general_not_mem_names
      (hdet ▸ List.mem_map_of_mem Prod.fst (List.get_mem subjectPatterns j hj))
  · push_neg at h0
    obtain ⟨k, hk, h1, h2, h3⟩ :=
      (bestFold_spec (lowerList input) subjectPatterns ("general", 0)).2 h0
    have hdk : detectSubjectCategory input = (subjectPatterns.get ⟨k, hk⟩).1 := by
      unfold detectSubjectCategory
      rw [h1]
    have hkj : k = j := by
      have hnames : (subjectPatterns.map Prod.fst).get ⟨k, by simpa using hk⟩
          = (subjectPatterns.map Prod.fst).get ⟨j, by simpa using hj⟩ := by
        rw [List.get_map, List.get_map]
        exact (hdk.symm.trans hdet)
      have := subjectPatterns_names_nodup.get_inj_iff.mp hnames
      exact congrArg Fin.val this
    subst hkj
    have hlt_i := h3 i hi hij
    rw [heq] at hlt_i
    rw [h2] at hlt_i
    exact lt_irrefl _ hlt_i

/-- Witness for C4: `"dog lion"` scores 1 in both `domesticAnimals`
(index 0) and `wildAnimals` (index 1); the later-declared `wildAnimals`
is not returned. -/
theorem detect_tie_earliest_witness :
    detectSubjectCategory "dog lion" ≠ (subjectPatterns.get ⟨1, by decide⟩).1 :=
  detect_tie_earliest "dog lion" 0 1 (by decide) (by decide) (by decide) (by decide)

/-- C5: `detectSubjectCategory` is total and deterministic — being a pure
function of its input it returns exactly one category name, either
`"general"` or a name from the catalog; a category's score counts each
distinct keyword phrase occurring as a substring of the lower-cased input
once (its keyword lists are duplicate-free, so the filter count equals the
deduplicated filter count); and when every category scores 0 the result is
`"general"`. -/
theorem detect_total_deterministic (input : String) :
    (detectSubjectCategory input = "general"
      ∨ detectSubjectCategory input ∈ subjectPatterns.map Prod.fst)
    ∧ ((∀ c ∈ subjectPatterns, categoryScore (lowerList input) c.2 = 0) →
        detectSubjectCategory input = "general")
    ∧ (∀ c ∈ subjectPatterns,
        categoryScore (lowerList input) c.2
          = (c.2.dedup.filter (fun p => jsIncludes (lowerList input) p.toList)).length) := by
  have hz : ∀ (cats : List (String × List String)),
      (∀ c ∈ cats, categoryScore (lowerList input) c.2 = 0) →
      maxScore (lowerList input) cats = 0 := by
    intro cats
    induction cats with
    | nil => intro _; rfl
    | cons c rest ih =>
      intro h
      show max (categoryScore (lowerList input) c.2) (maxScore (lowerList input) rest) = 0
      rw [h c (List.mem_cons_self c rest), ih (fun d hd => h d (List.mem_cons_of_mem c hd))]
      rfl
  refine ⟨?_, ?_, ?_⟩
  · by_cases h0 : maxScore (lowerList input) subjectPatterns ≤ 0
    · left
      unfold detectSubjectCategory
      rw [(bestFold_spec (lowerList input) subjectPatterns ("general", 0)).1 h0]
    · right
      push_neg at h0
      obtain ⟨k, hk, h1, _, _⟩ :=
        (bestFold_spec (lowerList input) subjectPatterns ("general", 0)).2 h0
      unfold detectSubjectCategory
      rw [h1]
      exact List.mem_map_of_mem Prod.fst (List.get_mem subjectPatterns k hk)
  · intro h
    unfold detectSubjectCategory
    rw [(bestFold_spec (lowerList input) subjectPatterns ("general", 0)).1
      (le_of_eq (hz subjectPatterns h))]
  · intro c hc
    rw [(subjectPatterns_each_nodup c hc).dedup]
    rfl

/-- Witness for C5: an input matching no keyword phrase classifies as
`"general"`. -/
theorem detect_total_deterministic_witness :
    detectSubjectCategory "qqq" = "general" :=
  (detect_total_deterministic "qqq").2.1 (by decide)

/-! ### Whitespace collapsing and trimming: structural facts for C6 -/

/-- Re-collapsing is stable in every reachable state combination. -/
lemma collapseAux_idem : ∀ l : List Char,
    collapseAux false (collapseAux false l) = collapseAux false l
    ∧ collapseAux true (collapseAux true l) = collapseAux true l
    ∧ collapseAux false (collapseAux true l) = collapseAux true l := by
  intro l
  induction l with
  | nil => exact ⟨rfl, rfl, rfl⟩
  | cons c rest ih =>
    by_cases hc : jsWhitespace c = true
    · have e1 : collapseAux false (c :: rest) = ' ' :: collapseAux true rest := by
        simp [collapseAux, hc]
      have e2 : collapseAux true (c :: rest) = collapseAux true rest := by
        simp [collapseAux, hc]
      refine ⟨?_, ?_, ?_⟩
      · rw [e1]
        have hsp : jsWhitespace ' ' = true := by decide
        show collapseAux false (' ' :: collapseAux true rest) = ' ' :: collapseAux true rest
        simp [collapseAux, hsp, ih.2.1]
      · rw [e2, ih.2.1]
      · rw [e2, ih.2.2]
    · have e : ∀ b, collapseAux b (c :: rest) = c :: collapseAux false rest := by
        intro b
        simp [collapseAux, hc]
      refine ⟨?_, ?_, ?_⟩
      · rw [e false]
        simp [collapseAux, hc, ih.1]
      · rw [e true]
        simp [collapseAux, hc, ih.1]
      · rw [e true]
        simp [collapseAux, hc, ih.1]

/-- Characters emitted by the collapser come from the input or are the
replacement space. -/
lemma mem_collapseAux : ∀ (l : List Char) (b : Bool) (x : Char),
    x ∈ collapseAux b l → x ∈ l ∨ x = ' ' := by
  intro l
  induction l with
  | nil =>
    intro b x hx
    simp [collapseAux] at hx
  | cons c rest ih =>
    intro b x hx
    by_cases hc : jsWhitespace c = true
    · cases b with
      | true =>
        rw [show collapseAux true (c :: rest) = collapseAux true rest by simp [collapseAux, hc]]
          at hx
        rcases ih true x hx with h | h
        · exact Or.inl (List.mem_cons_of_mem c h)
        · exact Or.inr h
      | false =>
        rw [show collapseAux false (c :: rest) = ' ' :: collapseAux true rest by
          simp [collapseAux, hc]] at hx
        rcases List.mem_cons.mp hx with rfl | hx'
        · exact Or.inr rfl
        · rcases ih true x hx' with h | h
          · exact Or.inl (List.mem_cons_of_mem c h)
          · exact Or.inr h
    · rw [show collapseAux b (c :: rest) = c :: collapseAux false rest by
        simp [collapseAux, hc]] at hx
      rcases List.mem_cons.mp hx with rfl | hx'
      · exact Or.inl (List.mem_cons_self _ _)
      · rcases ih false x hx' with h | h
        · exact Or.inl (List.mem_cons_of_mem c h)
        · exact Or.inr h

/-- The collapser keeps a non-whitespace head in place. -/
lemma collapseAux_head {l : List Char} {x : Char} (hx : l.head? = some x)
    (hnw : jsWhitespace x = false) : (collapseAux false l).head? = some x := by
  cases l with
  | nil => cases hx
  | cons a t =>
    cases hx
    simp [collapseAux, hnw]

/-- The collapser keeps a non-whitespace last character in place. -/
lemma collapseAux_last : ∀ (l : List Char) (b : Bool) {x : Char},
    l.getLast? = some x → jsWhitespace x = false →
    (collapseAux b l).getLast? = some x := by
  intro l
  induction l with
  | nil =>
    intro b x hx _
    cases hx
  | cons c rest ih =>
    intro b x hx hnw
    cases rest with
    | nil =>
      have hcx : c = x := by
        have : ([c] : List Char).getLast? = some c := rfl
        rw [this] at hx
        cases hx
        rfl
      subst hcx
      cases b <;> simp [collapseAux, hnw]
    | cons d rs =>
      have hx' : (d :: rs).getLast? = some x := by
        rw [← List.getLast?_cons_cons (a := c)]
        exact hx
      by_cases hc : jsWhitespace c = true
      · have hZ := ih true hx' hnw
        cases b with
        | true =>
          rw [show collapseAux true (c :: d :: rs) = collapseAux true (d :: rs) by
            simp [collapseAux, hc]]
          exact hZ
        | false =>
          rw [show collapseAux false (c :: d :: rs) = ' ' :: collapseAux true (d :: rs) by
            simp [collapseAux, hc]]
          cases hZs : collapseAux true (d :: rs) with
          | nil => rw [hZs] at hZ; cases hZ
          | cons z zs =>
            rw [List.getLast?_cons_cons, ← hZs]
            exact hZ
      · have hZ := ih false hx' hnw
        rw [show collapseAux b (c :: d :: rs) = c :: collapseAux false (d :: rs) by
          simp [collapseAux, hc]]
        cases hZs : collapseAux false (d :: rs) with
        | nil => rw [hZs] at hZ; cases hZ
        | cons z zs =>
          rw [List.getLast?_cons_cons, ← hZs]
          exact hZ

lemma head?_of_isPrefix {A B : List Char} (h : A <+: B) {x : Char}
    (hx : A.head? = some x) : B.head? = some x := by
  rcases h with ⟨t, rfl⟩
  cases A with
  | nil => cases hx
  | cons a A' =>
    cases hx
    rfl

/-- The trimmed list is a prefix of the left-trimmed list (and so a sublist
of the input). -/
lemma jsTrim_isPrefix (l : List Char) :
    jsTrim l <+: l.dropWhile jsWhitespace := by
  have h1 : ((l.dropWhile jsWhitespace).reverse.dropWhile jsWhitespace)
      <:+ (l.dropWhile jsWhitespace).reverse := List.dropWhile_suffix _
  have h2 := List.reverse_prefix.mpr h1
  rwa [List.reverse_reverse] at h2

lemma jsTrim_sublist (l : List Char) : List.Sublist (jsTrim l) l :=
  ((jsTrim_isPrefix l).sublist).trans (List.dropWhile_sublist _)

/-- Heads surviving `trim` are not whitespace. -/
lemma jsTrim_head_not_ws (l : List Char) {x : Char}
    (hx : (jsTrim l).head? = some x) : jsWhitespace x = false := by
  have hhead := head?_of_isPrefix (jsTrim_isPrefix l) hx
  have hdw := List.head?_dropWhile_not jsWhitespace l
  rw [hhead] at hdw
  exact hdw

/-- Last characters surviving `trim` are not whitespace. -/
lemma jsTrim_last_not_ws (l : List Char) {x : Char}
    (hx : (jsTrim l).getLast? = some x) : jsWhitespace x = false := by
  unfold jsTrim at hx
  rw [List.getLast?_reverse] at hx
  have hdw := List.head?_dropWhile_not jsWhitespace (l.dropWhile jsWhitespace).reverse
  rw [hx] at hdw
  exact hdw

lemma dropWhile_eq_self_of_head (l : List Char)
    (h : ∀ x, l.head? = some x → jsWhitespace x = false) :
    l.dropWhile jsWhitespace = l := by
  cases l with
  | nil => rfl
  | cons a t =>
    rw [List.dropWhile_cons_of_neg]
    simp [h a rfl]

/-- A list with non-whitespace head and last character is already trimmed. -/
lemma jsTrim_eq_self (l : List Char)
    (hh : ∀ x, l.head? = some x → jsWhitespace x = false)
    (hl : ∀ x, l.getLast? = some x → jsWhitespace x = false) :
    jsTrim l = l := by
  unfold jsTrim
  rw [dropWhile_eq_self_of_head l hh]
  rw [dropWhile_eq_self_of_head l.reverse (fun x hx =>
    hl x (by rwa [List.head?_reverse] at hx))]
  exact List.reverse_reverse l

/-- The cleaning pipeline is idempotent on inputs containing none of the
stripped characters. -/
lemma sanitizeCore_idem (s : String) (h2 : ∀ c ∈ s.toList, strippedChar c = false) :
    sanitizeCore (sanitizeCore s) = sanitizeCore s := by
  have hL2 : ∀ c ∈ jsTrim s.toList, strippedChar c = false :=
    fun c hc => h2 c ((jsTrim_sublist s.toList).subset hc)
  have e1 : removeStripped (jsTrim s.toList) = jsTrim s.toList := by
    unfold removeStripped
    exact List.filter_eq_self.mpr (fun a ha => by simp [hL2 a ha])
  have hM2 : ∀ c ∈ collapseWS (jsTrim s.toList), strippedChar c = false := by
    intro c hc
    rcases mem_collapseAux _ false c hc with h | rfl
    · exact hL2 c h
    · decide
  have hhead : ∀ x, (collapseWS (jsTrim s.toList)).head? = some x →
      jsWhitespace x = false := by
    intro x hx
    cases hJ : jsTrim s.toList with
    | nil =>
      rw [show collapseWS (jsTrim s.toList) = [] by rw [hJ]; rfl] at hx
      cases hx
    | cons a t =>
      have ha : jsWhitespace a = false := jsTrim_head_not_ws s.toList (by rw [hJ]; rfl)
      have hcw : (collapseWS (jsTrim s.toList)).head? = some a :=
        collapseAux_head (l := jsTrim s.toList) (by rw [hJ]; rfl) ha
      rw [hx] at hcw
      cases hcw
      exact ha
  have hlast : ∀ x, (collapseWS (jsTrim s.toList)).getLast? = some x →
      jsWhitespace x = false := by
    intro x hx
    cases hJ : jsTrim s.toList with
    | nil =>
      rw [show collapseWS (jsTrim s.toList) = [] by rw [hJ]; rfl] at hx
      cases hx
    | cons a t =>
      cases hz : (a :: t).getLast? with
      | none => rw [List.getLast?_eq_none_iff] at hz; cases hz
      | some z =>
        have hzl : (jsTrim s.toList).getLast? = some z := by rw [hJ]; exact hz
        have hznw : jsWhitespace z = false := jsTrim_last_not_ws s.toList hzl
        have hcw : (collapseWS (jsTrim s.toList)).getLast? = some z :=
          collapseAux_last (jsTrim s.toList) false hzl hznw
        rw [hx] at hcw
        cases hcw
        exact hznw
  show String.mk (collapseWS (removeStripped (jsTrim
      (String.mk (collapseWS (removeStripped (jsTrim s.toList)))).toList))) = _
  rw [show (String.mk (collapseWS (removeStripped (jsTrim s.toList)))).toList
      = collapseWS (removeStripped (jsTrim s.toList)) from rfl]
  rw [e1]
  rw [jsTrim_eq_self _ hhead hlast]
  rw [show removeStripped (collapseWS (jsTrim s.toList)) = collapseWS (jsTrim s.toList) from
    List.filter_eq_self.mpr (fun a ha => by simp [hM2 a ha])]
  show String.mk (collapseAux false (collapseAux false (jsTrim s.toList))) = _
  rw [(collapseAux_idem (jsTrim s.toList)).1]
  rw [← e1]
  rfl

/-- C6 counterexample: `sanitizeText` accepts `"a <"` and returns `"a "` —
removing the `<` exposes a trailing space that the already-performed trim no
longer removes — but a second application returns `"a"`, so `sanitizeText` is
not idempotent on its accepted domain as claimed. -/
theorem sanitizeText_not_idempotent_cex :
    sanitizeText (.str "a <") = .ok "a "
    ∧ sanitizeText (.str "a ") = .ok "a"
    ∧ ("a " : String) ≠ "a" :=
  ⟨by decide, by decide, by decide⟩

/-- C6 (amended): `sanitizeText` is idempotent on every accepted input that
contains none of the stripped characters `< > " ' ` ` — for such inputs the
accepted result is itself accepted and re-sanitizes to itself.  (On accepted
inputs containing a stripped character adjacent to edge whitespace,
idempotence fails, as the counterexample shows.) -/
theorem sanitizeText_idem (s r : String)
    (h1 : sanitizeText (.str s) = .ok r)
    (h2 : ∀ c ∈ s.toList, strippedChar c = false) :
    sanitizeText (.str r) = .ok r := by
  by_cases hs : s = ""
  · subst hs
    simp [sanitizeText] at h1
  · simp only [sanitizeText, if_neg hs] at h1
    by_cases hlen : (sanitizeCore s).length < 1 ∨ (sanitizeCore s).length > 500
    · rw [if_pos hlen] at h1
      cases h1
    · rw [if_neg hlen] at h1
      cases h1
      push_neg at hlen
      have hkey : sanitizeCore (sanitizeCore s) = sanitizeCore s := sanitizeCore_idem s h2
      have hne : sanitizeCore s ≠ "" := by
        intro h
        rw [h] at hlen
        exact absurd hlen.1 (by decide)
      simp only [sanitizeText, if_neg hne, hkey]
      rw [if_neg (by omega)]

/-- Witness for the amended C6 theorem: a doubled internal space is collapsed
and the result re-sanitizes to itself. -/
theorem sanitizeText_idem_witness :
    sanitizeText (.str "a  b") = .ok "a b" ∧ sanitizeText (.str "a b") = .ok "a b" :=
  ⟨by decide, sanitizeText_idem "a  b" "a b" (by decide) (by decide)⟩

end PromptRefinement
